import Mathlib

/-!
Verification development for the conditional-token-index-scan repository.

The definitions below are a shallow embedding of `src/lib/polynance-sdk.ts`.
JavaScript numbers are modelled as rationals (`ℚ`); the one place where a
`NaN` is observable (`calculateRemainingHours` on an unparseable date) uses
the explicit `JsNum` type.  External collaborators (the market-data provider,
`Math.random`, `Date`) are passed in as explicit oracle parameters bundled in
`Env`.  Mutable service state (the four memo maps of `PolynanceService`) is
threaded explicitly as `SvcState`; Market objects live in a heap addressed by
their cache key so that the reference aliasing of the source (cached Market
objects shared between cached Index results) is preserved.
-/

namespace Polynance

/-- A JavaScript number that may be `NaN` (all other values are rationals). -/
inductive JsNum where
  | nan : JsNum
  | num : ℚ → JsNum
deriving DecidableEq

/-- JS subtraction: `NaN` absorbs. -/
def JsNum.sub : JsNum → JsNum → JsNum
  | .num a, .num b => .num (a - b)
  | _, _ => .nan

/-- JS division by a nonzero literal constant: `NaN` absorbs. -/
def JsNum.divC : JsNum → ℚ → JsNum
  | .num a, c => .num (a / c)
  | .nan, _ => .nan

/-- JS `Math.max`: returns `NaN` when either argument is `NaN`. -/
def jsMax : JsNum → JsNum → JsNum
  | .num a, .num b => .num (max a b)
  | _, _ => .nan

/-- JS truthiness default `x || d` on numbers (total model: `0` is falsy). -/
def jsOrQ (x : ℚ) : ℚ := if x = 0 then 0 else x

/-- JS truthiness default `s || d` for an optional string (`undefined` and
`""` are falsy). -/
def jsOrStr (o : Option String) (d : String) : String :=
  match o with
  | some s => if s = "" then d else s
  | none => d

/-- `s.toLowerCase()` (ASCII as used here), written over the character list
so that it evaluates definitionally. -/
def jsToLower (s : String) : String := ⟨s.data.map Char.toLower⟩

/-- `new Date(str).getTime()`: `some ms` for a parseable date, `none`
(an Invalid Date, whose `getTime()` is `NaN`) otherwise.  Date parsing is an
environment primitive, modelled as this oracle's input. -/
def dateGetTime (parsed : Option ℚ) : JsNum :=
  match parsed with
  | some ms => .num ms
  | none => .nan

/-- `PolynanceService.calculateRemainingHours` (source lines 572-582).
`parsed` is the oracle result of `new Date(endDateStr).getTime()` and
`nowMs` is `new Date().getTime()`.  The source computes
`Math.max(0, (endDate.getTime() - now.getTime()) / 3600000)` inside a
`try`/`catch` whose `catch` returns `0`; none of the operations throw in
JavaScript, so the `catch` branch is unreachable and is not represented. -/
def calculateRemainingHours (parsed : Option ℚ) (nowMs : ℚ) : JsNum :=
  jsMax (.num 0) (JsNum.divC (JsNum.sub (dateGetTime parsed) (.num nowMs)) (1000 * 60 * 60))

/-- A trade record as used by the SDK (`TradeRecord`). -/
structure TradeRecord where
  price : ℚ
  volumeBase : ℚ
  timestamp : ℚ
  trader : String
deriving DecidableEq

/-- One OHLCV candle (`CandleData`, source lines 55-62).  `openP`/`closeP`
are the source's `open`/`close` fields (renamed: `open` is a Lean keyword). -/
structure CandleData where
  time : ℚ
  openP : ℚ
  high : ℚ
  low : ℚ
  closeP : ℚ
  volume : ℚ
deriving DecidableEq

/-- A bid or ask level `{price, size}`. -/
structure PriceSize where
  price : ℚ
  size : ℚ
deriving DecidableEq

/-- `OrderBookSummary` from the SDK. -/
structure OrderBookSummary where
  market : String
  asset_id : String
  timestamp : ℚ
  bids : List PriceSize
  asks : List PriceSize
  hash : String
deriving DecidableEq

/-- The application's `Market` record (source lines 29-44).  `endDate` is the
source's `end` field (renamed: `end` is a Lean keyword). -/
structure Market where
  id : String
  name : String
  proportion : ℚ
  price : ℚ
  category : String
  remainingHours : JsNum
  icon : String
  priceHistory : Option (List (List TradeRecord)) := none
  orderbook : Option (List (String × OrderBookSummary)) := none
  volume : ℚ
  endDate : String
  position : Option String := none
  description : Option String := none
deriving DecidableEq

/-- The application's `Index` record (source lines 5-26), with the optional
derived fields.  `markets` holds plain Market values here; the service-state
model below keeps the live (aliased) constituent list separately. -/
structure Index where
  id : String
  name : String
  makrtesIds : List String
  positionNames : List Int
  icons : List String
  avgPrice : ℚ
  confilmYield : ℚ
  status : String
  contractAddress : String
  resolutionTime : String
  priceChange24h : Option String := none
  yieldRange : Option String := none
  yieldLoss : Option String := none
  markets : Option (List Market) := none
  daysRemaining : Option Nat := none
  volume : Option ℚ := none
  marketCap : Option ℚ := none
  settlementDate : Option String := none
  expired : Option Bool := none
deriving DecidableEq

/-- The five `predefinedIndexes` (source lines 65-125). -/
def predefinedIndexes : List Index := [
  { id := "non-viable-candidate", name := "Non-Viable Candidate Index",
    makrtesIds := ["534197", "534220", "528716", "528717"],
    positionNames := [2, 2, 2, 2], icons := ["", "", "", ""],
    avgPrice := 0, confilmYield := 0, status := "Active",
    contractAddress := "0xC01BbFC94C41F0D8Fc242cFe8465ea4dcD4f20C5",
    resolutionTime := "3 days" },
  { id := "reliable-forecast", name := "Reliable Forecast Index",
    makrtesIds := ["516909", "514138", "544924", "543148"],
    positionNames := [1, 1, 1, 1], icons := ["", "", "", ""],
    avgPrice := 0, confilmYield := 0, status := "Inactive",
    contractAddress := "0x787dE5d30d327Ed20b3CaE7227f0aEcAcda2852E",
    resolutionTime := "4 days" },
  { id := "90-percent-index", name := "90% Index of Yes and No",
    makrtesIds := ["544924", "543148", "528716", "528717"],
    positionNames := [1, 1, 2, 2], icons := ["", "", "", ""],
    avgPrice := 0, confilmYield := 0, status := "Active",
    contractAddress := "0x2f583fa67768b4d0c092ce35455202602ec60c76",
    resolutionTime := "3 days" },
  { id := "polynance-ai-random", name := "Polynance AI Random Select Index",
    makrtesIds := ["516960", "517124", "520435", "20789"],
    positionNames := [1, 1, 1, 1], icons := ["", "", "", ""],
    avgPrice := 0, confilmYield := 0, status := "Active",
    contractAddress := "0x0557EceeAD263249368B07E12e9f6C1FC59878eB",
    resolutionTime := "3 days " },
  { id := "cos similar 0.7 `Japan`", name := "Cos Similarity 0.7 Japan",
    makrtesIds := ["522638", "522637", "517000", "532750"],
    positionNames := [2, 1, 2, 2], icons := ["", "", "", ""],
    avgPrice := 0, confilmYield := 0, status := "Active",
    contractAddress := "0xd189321231B8A71493506eC87b959bed191E8f4d",
    resolutionTime := "3 days " }]

/-! ### Stable sorting by timestamp

`Array.prototype.sort` with comparator `(a, b) => a.timestamp - b.timestamp`
is a stable ascending sort; it is modelled by insertion sort that keeps
equal-timestamp records in their original relative order. -/

/-- Insert a record after all records whose timestamp is `≤` its own. -/
def insertTrade (x : TradeRecord) : List TradeRecord → List TradeRecord
  | [] => [x]
  | y :: ys => if y.timestamp ≤ x.timestamp then y :: insertTrade x ys else x :: y :: ys

/-- Stable ascending sort by `timestamp` (the JS comparator sort). -/
def sortByTs (l : List TradeRecord) : List TradeRecord :=
  l.foldl (fun acc x => insertTrade x acc) []

/-! ### Candle generation (`generateCandleData`, source lines 441-486) -/

/-- Bucket membership test `record.timestamp * 1000 >= candleStart &&
record.timestamp * 1000 < candleEnd`. -/
def inBucket (s e : ℚ) (r : TradeRecord) : Bool :=
  decide (s ≤ r.timestamp * 1000 ∧ r.timestamp * 1000 < e)

/-- OHLCV extraction for one bucket (source lines 466-482): `none` when the
bucket holds no trades (no candle is pushed), otherwise open = first record's
price, close = last record's price, high/low = max/min price, volume = sum of
`volumeBase || 0`, time = bucket start converted back to seconds. -/
def candleOfRecs (candleStart : ℚ) : List TradeRecord → Option CandleData
  | [] => none
  | r :: rest => some {
      time := candleStart / 1000,
      openP := r.price,
      high := rest.foldl (fun a x => max a x.price) r.price,
      low := rest.foldl (fun a x => min a x.price) r.price,
      closeP := ((r :: rest).getLast?.getD r).price,
      volume := (r :: rest).foldl (fun a x => a + jsOrQ x.volumeBase) 0 }

/-- `PolynanceService.generateCandleData` after the sort: the JS loop
`for (time = startTime; time <= endTime; time += intervalMs)` visits exactly
the bucket starts `startTime + k * intervalMs` for
`k = 0 .. ⌊(endTime - startTime) / intervalMs⌋` when `intervalMs > 0`
(for a non-positive interval the JS loop would not terminate, so the model
is only quoted under a positivity hypothesis). -/
def candlesFromSorted (sorted : List TradeRecord) (intervalHours : ℚ) : List CandleData :=
  match sorted with
  | [] => []
  | s0 :: srest =>
    let intervalMs := intervalHours * 60 * 60 * 1000
    let startTime := s0.timestamp * 1000
    let endTime := ((s0 :: srest).getLast?.getD s0).timestamp * 1000
    let n := (⌊(endTime - startTime) / intervalMs⌋).toNat
    (List.range (n + 1)).filterMap (fun (k : Nat) =>
      let candleStart := startTime + (k : ℚ) * intervalMs
      candleOfRecs candleStart
        ((s0 :: srest).filter (inBucket candleStart (candleStart + intervalMs))))

/-- `PolynanceService.generateCandleData` (source lines 441-486): empty input
short-circuits to `[]`; otherwise a copy of the input is sorted by timestamp
and bucketed. -/
def generateCandleData (tradeRecords : List TradeRecord) (intervalHours : ℚ) : List CandleData :=
  candlesFromSorted (sortByTs tradeRecords) intervalHours

/-- `generateCandleData` with the caller's array held in a mutable store
(`heap`), making the frame effect of the source visible: the source evaluates
`[...tradeRecords]` (allocating a fresh array, modelled at address `scratch`)
and calls `.sort` on that fresh array, which mutates it in place; the
caller's array at `ref` is only ever read.  On empty input the source returns
before the copy is made. -/
def generateCandleDataHeap (heap : Nat → List TradeRecord) (ref scratch : Nat)
    (intervalHours : ℚ) : (Nat → List TradeRecord) × List CandleData :=
  let arr := heap ref
  if arr = [] then (heap, [])
  else
    let heap1 := fun k => if k = scratch then sortByTs arr else heap k
    (heap1, candlesFromSorted (heap1 scratch) intervalHours)

/-! ### Number formatting (`toFixed`, template-literal printing) -/

/-- JS rounding to an integer, half away from zero (the rounding `toFixed`
applies at the values this development evaluates). -/
def jsRound (q : ℚ) : ℤ := if q < 0 then -(⌊-q + 1/2⌋) else ⌊q + 1/2⌋

/-- Two-digit zero padding. -/
def pad2 (n : Nat) : String := if n < 10 then "0" ++ toString n else toString n

/-- `x.toFixed(1)`. -/
def toFixed1 (q : ℚ) : String :=
  let m := jsRound (q * 10)
  (if m < 0 then "-" else "") ++ toString (m.natAbs / 10) ++ "." ++ toString (m.natAbs % 10)

/-- `x.toFixed(2)`. -/
def toFixed2 (q : ℚ) : String :=
  let m := jsRound (q * 100)
  (if m < 0 then "-" else "") ++ toString (m.natAbs / 100) ++ "." ++ pad2 (m.natAbs % 100)

/-- `Number(x.toFixed(2))`: round to two decimal places. -/
def roundTo2 (q : ℚ) : ℚ := (jsRound (q * 100) : ℚ) / 100

/-- Decimal digits of a fractional part (fuel-bounded; every number this
development prints has a terminating decimal expansion). -/
def fracDigits (fuel : Nat) (f : ℚ) : String :=
  match fuel with
  | 0 => ""
  | fuel + 1 =>
    if f = 0 then ""
    else toString (⌊f * 10⌋).toNat ++ fracDigits fuel (f * 10 - ⌊f * 10⌋)

/-- JS template-literal printing of a number with a terminating decimal
expansion (e.g. `8.5` prints as `"8.5"`, `8` as `"8"`). -/
def jsNumRepr (q : ℚ) : String :=
  let s := if q < 0 then "-" else ""
  let a := |q|
  let f := a - ⌊a⌋
  if f = 0 then s ++ toString (⌊a⌋).toNat
  else s ++ toString (⌊a⌋).toNat ++ "." ++ fracDigits 20 f

/-! ### Regex helpers (`/(\d+) days?/` and `Number.parseInt`) -/

/-- Split a leading digit run off a character list. -/
def takeDigits : List Char → List Char × List Char
  | [] => ([], [])
  | c :: cs => if c.isDigit then
      let p := takeDigits cs
      (c :: p.1, p.2)
    else ([], c :: cs)

/-- Numeric value of a digit run. -/
def digitsVal (l : List Char) : Nat := l.foldl (fun a c => a * 10 + (c.toNat - 48)) 0

/-- Does the remainder after the digit run continue with `" day"`? -/
def afterDigitsIsDay : List Char → Bool
  | ' ' :: 'd' :: 'a' :: 'y' :: _ => true
  | _ => false

/-- Leftmost match of `/(\d+) days?/`: at each start position take the
maximal digit run and require `" day"` to follow (the trailing `s?` never
affects the captured group). -/
def matchDaysAux : List Char → Option Nat
  | [] => none
  | c :: cs =>
    let p := takeDigits (c :: cs)
    if p.1 ≠ [] ∧ afterDigitsIsDay p.2 then some (digitsVal p.1) else matchDaysAux cs

/-- `resolutionTime.match(/(\d+) days?/)` capture, as used by
`calculateIndexFields`. -/
def matchDays (s : String) : Option Nat := matchDaysAux s.toList

/-- `Number.parseInt(s)` restricted to the shapes that occur (leading spaces
then a digit run); `none` models `NaN`. -/
def parseIntJs (s : String) : Option Nat :=
  let p := takeDigits (s.toList.dropWhile (fun c => c = ' '))
  if p.1 = [] then none else some (digitsVal p.1)

/-! ### Mock price history (`generateMockPriceHistory`, source lines 795-816) -/

/-- One random-walk step: `price = Math.max(0.5, Math.min(0.99,
price + price * change))`. -/
def mockStep (price change : ℚ) : ℚ :=
  max (1/2) (min (99/100) (price + price * change))

/-- The loop body of `generateMockPriceHistory`: the JS loop
`for (let i = days; i >= 0; i--)` runs `days + 1` times; `j` counts
iterations so `i = days - j`.  `Math.random()` draws are read off the `rand`
stream and the random trader strings off `tag`. -/
def mockGo (rand : Nat → ℚ) (tag : Nat → String) (nowSec : ℤ) (days : Nat) :
    Nat → Nat → ℚ → List TradeRecord
  | 0, _, _ => []
  | fuel + 1, j, price =>
    let change := rand (2 * j + 1) * (6/100) - 3/100
    let price1 := mockStep price change
    { price := price1, volumeBase := rand (2 * j + 2) * 10000,
      timestamp := ((nowSec - ((days - j : Nat) : ℤ) * 86400 : ℤ) : ℚ),
      trader := tag j } ::
      mockGo rand tag nowSec days fuel (j + 1) price1

/-- `PolynanceService.generateMockPriceHistory(days)`: a random walk starting
at `0.75 + Math.random() * 0.2`, one record per day from `days` days ago up
to `nowSec`. -/
def generateMockPriceHistory (rand : Nat → ℚ) (tag : Nat → String) (nowSec : ℤ)
    (days : Nat) : List TradeRecord :=
  mockGo rand tag nowSec days (days + 1) 0 (3/4 + rand 0 * (1/5))

/-! ### Index price history (`getIndexPriceHistory`, source lines 347-389) -/

/-- The record-collection loop of `getIndexPriceHistory`, translated push by
push: for each market (with its slot position `i` from `forEach`), the guard
`market.priceHistory && market.priceHistory.length > 0 &&
market.priceHistory[0]?.length > 0` must pass; then the side
`positionNames[i] === 1 ? 0 : 1` is selected with
`priceHistory[positionIndex] || priceHistory[0]` (an existing-but-empty side
is kept: arrays are truthy), and each record is pushed with `volumeBase || 0`
and a synthetic trader tag (tags are drawn positionally from `tag`, indexed
by the push counter, i.e. the accumulator length). -/
def collectRecords (tag : Nat → String) (codes : List Int) (ms : List Market) :
    List TradeRecord :=
  ms.enum.foldl (fun acc p =>
    match p.2.priceHistory with
    | some (ph0 :: phrest) =>
      if ph0 ≠ [] then
        let positionIndex : Nat := if codes.getD p.1 0 = 1 then 0 else 1
        let positionHistory := (((ph0 :: phrest).get? positionIndex)).getD ph0
        positionHistory.foldl (fun acc2 r =>
          acc2 ++ [{ price := r.price, volumeBase := jsOrQ r.volumeBase,
                     timestamp := r.timestamp, trader := tag acc2.length }]) acc
      else acc
    | _ => acc) []

/-- `PolynanceService.getIndexPriceHistory`: collect the side-selected
records of every constituent; if the index has no markets or nothing was
collected, fall back to `generateMockPriceHistory(30)`; otherwise sort
ascending by timestamp. -/
def getIndexPriceHistory (rand : Nat → ℚ) (tag : Nat → String) (nowSec : ℤ)
    (idx : Index) : List TradeRecord :=
  match idx.markets with
  | none => generateMockPriceHistory rand tag nowSec 30
  | some [] => generateMockPriceHistory rand tag nowSec 30
  | some ms =>
    let allRecords := collectRecords tag idx.positionNames ms
    if allRecords = [] then generateMockPriceHistory rand tag nowSec 30
    else sortByTs allRecords

/-! ### Composite field computation (`calculateIndexFields`, source 588-681) -/

/-- `PolynanceService.calculateIndexFields` (full-resolution composite
fields).  The source mutates `index` in place; the model returns the updated
record.  `rand` models `Math.random()` and `fmtSettle` models the
`Date`-library computation `today + daysRemaining` formatted `YYYYMMDD`
(a wall-clock-dependent environment primitive, indexed by `daysRemaining`). -/
def calculateIndexFields (rand : Nat → ℚ) (fmtSettle : Nat → String)
    (idx : Index) : Index :=
  let daysRemaining := (matchDays idx.resolutionTime).getD 0
  let expired := jsToLower idx.status = "inactive"
  let settlementDate := fmtSettle daysRemaining
  let ms := idx.markets.getD []
  let avgPrice :=
    if ms ≠ [] then roundTo2 ((ms.foldl (fun s m => s + m.price) 0) / (ms.length : ℚ))
    else idx.avgPrice
  let volume0 : Option ℚ :=
    if ms ≠ [] then some (roundTo2 ((ms.foldl (fun s m => s + m.volume) 0) / 1000000))
    else idx.volume
  let priceChange24h : Option String :=
    if ms ≠ [] then
      let pcv := ms.foldl (fun (a : ℚ × Nat) m =>
        match m.priceHistory with
        | some ((r0 :: r1 :: rs) :: _) =>
          let latest := ((r0 :: r1 :: rs).getLast?.getD r0).price
          (a.1 + (latest - r0.price) / r0.price, a.2 + 1)
        | _ => a) (0, 0)
      if pcv.2 > 0 then
        let avg := pcv.1 / (pcv.2 : ℚ)
        some ((if avg ≥ 0 then "+" else "") ++ toFixed2 (avg * 100) ++ "%")
      else
        let change := toFixed2 (rand 0 * (1/10) - 1/20)
        some (if change.startsWith "-" then change ++ "%" else "+" ++ change ++ "%")
    else idx.priceChange24h
  let base := { idx with daysRemaining := some daysRemaining,
                         expired := some expired,
                         settlementDate := some settlementDate,
                         avgPrice := avgPrice,
                         volume := volume0,
                         priceChange24h := priceChange24h }
  if expired then
    let cy := if idx.confilmYield = 0 then (17 : ℚ) / 2 else idx.confilmYield
    { base with confilmYield := cy,
                yieldRange := some ("+" ++ jsNumRepr cy ++ "%"),
                priceChange24h := some "+0.00%",
                volume := some (1/20),
                marketCap := some (1/10) }
  else
    let withYields :=
      if ms ≠ [] then
        let ysum := ms.enum.foldl (fun (a : ℚ) p =>
          let isYes := idx.positionNames.getD p.1 0 = 1
          let price := p.2.price
          if isYes ∧ price > 0 then a + (1 / price - 1) * 100
          else if ¬isYes ∧ price < 1 then a + (1 / (1 - price) - 1) * 100
          else a) 0
        let yieldValue := ysum / (ms.length : ℚ)
        { base with yieldRange := some ("+" ++ toFixed1 yieldValue ++ "%"),
                    yieldLoss := some ("-" ++ toFixed1 (yieldValue * (1/2)) ++ "%") }
      else
        { base with yieldRange := some "+7.5%", yieldLoss := some "-3.2%" }
    { withYields with
        marketCap := some (match volume0 with
          | some v => if v = 0 then 0 else v * 2
          | none => 0) }

/-! ### Fallback constructors (source lines 734-788) -/

/-- `PolynanceService.createFallbackMarket`.  `rbase` is the position in the
`Math.random()` stream at which this call's four draws start, and `isoDate`
models `new Date(ms).toISOString()`. -/
def createFallbackMarket (rand : Nat → ℚ) (isoDate : ℚ → String) (nowMs : ℚ)
    (rbase : Nat) (marketId : String) (totalMarkets : Nat) (positionType : Int) :
    Market :=
  { id := marketId,
    name := "Market " ++ marketId,
    proportion := 1 / (totalMarkets : ℚ),
    price := 7/10 + rand rbase * (1/4),
    category := "Unknown",
    remainingHours := .num ((⌊rand (rbase + 1) * 72⌋ : ℤ) : ℚ),
    icon := "",
    priceHistory := some [],
    orderbook := some [],
    volume := rand (rbase + 2) * 1000000,
    endDate := isoDate (nowMs + rand (rbase + 3) * 86400000 * 7),
    position := some (if positionType = 1 then "YES" else "NO"),
    description := none }

/-! ### Claim-side definitions

These definitions follow the wording of the spec/claims (not the source) and
exist only to be compared against the source-translated functions above. -/

/-- A pushed record before its trader tag is attached. -/
def untaggedRec (r : TradeRecord) : TradeRecord :=
  { price := r.price, volumeBase := jsOrQ r.volumeBase,
    timestamp := r.timestamp, trader := "" }

/-- Attach trader tags positionally, starting at stream position `n`. -/
def retagFrom (tag : Nat → String) : Nat → List TradeRecord → List TradeRecord
  | _, [] => []
  | n, x :: xs => { x with trader := tag n } :: retagFrom tag (n + 1) xs

/-- Claim C5's selection rule, as the claim states it: for each constituent,
position code `1` selects trade array `0`, any other code selects array `1`,
falling back to array `0` when the selected side is absent; all selected
trades are concatenated and tagged.  (No further guard is mentioned by the
claim.) -/
def claimSelectRecords (tag : Nat → String) (codes : List Int) (ms : List Market) :
    List TradeRecord :=
  retagFrom tag 0 ((ms.enum.map (fun p =>
    let ph := p.2.priceHistory.getD []
    let positionIndex : Nat := if codes.getD p.1 0 = 1 then 0 else 1
    ((ph.get? positionIndex).getD (ph.headD [])).map untaggedRec)).flatten)

/-- Claim C5's full statement of `getIndexPriceHistory`: the concatenated
side-selected trades, tagged, sorted ascending by timestamp. -/
def claimIndexPriceHistory (tag : Nat → String) (codes : List Int)
    (ms : List Market) : List TradeRecord :=
  sortByTs (claimSelectRecords tag codes ms)

/-- The amended selection rule (what the source actually does): a constituent
contributes only when its `priceHistory` is present, nonempty, and its
*first* trade array is nonempty; then code `1` selects array `0`, any other
code selects array `1`, falling back to array `0` when the selected index is
absent.  Written declaratively (flatten of per-constituent selections, tagged
positionally) to be compared with the push-loop translation
`collectRecords`.  This is the per-constituent selection. -/
def amendedPerMarket (codes : List Int) (p : Nat × Market) : List TradeRecord :=
  match p.2.priceHistory with
  | some (ph0 :: phrest) =>
    if ph0 ≠ [] then
      let positionIndex : Nat := if codes.getD p.1 0 = 1 then 0 else 1
      (((ph0 :: phrest).get? positionIndex).getD ph0).map untaggedRec
    else []
  | _ => []

/-- See `amendedPerMarket`: the concatenation of every constituent's guarded
selection, tagged positionally. -/
def amendedSelectRecords (tag : Nat → String) (codes : List Int) (ms : List Market) :
    List TradeRecord :=
  retagFrom tag 0 ((ms.enum.map (amendedPerMarket codes)).flatten)

/-- Claim C9's yield formula, as the claim states it: sum over the
constituents (paired with their position codes) of the YES/NO contribution,
divided by the constituent count. -/
def claimYieldValue (codes : List Int) (ms : List Market) : ℚ :=
  ((codes.zip ms).foldl (fun (a : ℚ) p =>
    if p.1 = 1 ∧ p.2.price > 0 then a + (1 / p.2.price - 1) * 100
    else if p.1 ≠ 1 ∧ p.2.price < 1 then a + (1 / (1 - p.2.price) - 1) * 100
    else a) 0) / (ms.length : ℚ)

/-- Claim C7's candle for one bucket, as the claim states it: the bucket's
trades are taken from the raw series by membership and put in time order by
the stable sort; open/close are the first/last in time order, high/low the
extrema, volume the sum, time the bucket start in seconds. -/
def claimCandle (trades : List TradeRecord) (candleStart intervalMs : ℚ) :
    Option CandleData :=
  candleOfRecs candleStart
    (sortByTs (trades.filter (inBucket candleStart (candleStart + intervalMs))))

/-- Claim C7's statement of `generateCandleData`: buckets span first to last
timestamp at the given width; one candle per non-empty bucket, none for empty
buckets. -/
def claimCandleData (trades : List TradeRecord) (intervalHours : ℚ) :
    List CandleData :=
  match sortByTs trades with
  | [] => []
  | s0 :: srest =>
    let intervalMs := intervalHours * 60 * 60 * 1000
    let startTime := s0.timestamp * 1000
    let endTime := ((s0 :: srest).getLast?.getD s0).timestamp * 1000
    let n := (⌊(endTime - startTime) / intervalMs⌋).toNat
    (List.range (n + 1)).filterMap (fun (k : Nat) =>
      claimCandle trades (startTime + (k : ℚ) * intervalMs) intervalMs)

/-! ### The stateful service (`PolynanceService`, caches and resolution)

Market objects are heap-allocated: `getMarket` caches the object it builds
and returns *that object*, and `getIndexWithData` mutates it in place
(position, proportion, priceHistory, orderbook) while the cached Index keeps
a reference to it.  The heap is addressed by the cache key
`provider + "-" + marketId` (each key holds exactly one object for the
process lifetime, so the key is a faithful address). -/

/-- A raw exchange record from the SDK (`polynance_sdk`'s `Exchange`),
restricted to the fields `getMarket` reads. -/
structure PositionToken where
  name : String
  price : ℚ
deriving DecidableEq

/-- See `PositionToken`. -/
structure Exchange where
  id : String
  name : String
  groupItemTitle : Option String
  endDate : String
  icon : Option String
  position_tokens : List PositionToken
  description : Option String
deriving DecidableEq

/-- `PolynanceService.getAveragePrice` (source lines 553-565): mean of
`Number(token.price) || 0` over the position tokens, `0` when there are
none. -/
def getAveragePrice (ex : Exchange) : ℚ :=
  match ex.position_tokens with
  | [] => 0
  | ts => (ts.foldl (fun s t => s + jsOrQ t.price) 0) / (ts.length : ℚ)

/-- The external environment: the market-data provider's three fetches
(`none` models a thrown error), `Math.random` as a stream, `Date` parsing,
printing and clock, and the settlement-date formatter. -/
structure Env where
  fetchExchange : String → String → Option Exchange
  fetchPriceHistory : String → String → Option (List (List TradeRecord))
  fetchOrderbook : String → String → Option (List (String × OrderBookSummary))
  rand : Nat → ℚ
  tag : Nat → String
  parseDate : String → Option ℚ
  isoDate : ℚ → String
  nowMs : ℚ
  fmtSettle : Nat → String

/-- A constituent slot of a resolved index: either a reference to the shared
cached Market object, or a fallback Market that was created fresh for this
slot (fallback markets are never cached). -/
inductive MSlot where
  | ref : String → MSlot
  | val : Market → MSlot
deriving DecidableEq

/-- A cached/returned Index object: its computed fields plus the live
constituent list (`fields.markets` is kept `none`; constituents are observed
through `slots` and the Market heap). -/
structure IndexObj where
  fields : Index
  slots : List MSlot
deriving DecidableEq

/-- The four memo maps of `PolynanceService` (source lines 134-137).
`cachedMarkets` doubles as the Market heap. -/
structure SvcState where
  cachedMarkets : List (String × Market)
  cachedPriceHistories : List (String × List TradeRecord)
  cachedOrderbooks : List (String × List (String × OrderBookSummary))
  cachedIndexes : List (String × IndexObj)
deriving DecidableEq

/-- The empty service state (a freshly constructed `PolynanceService`). -/
def initState : SvcState := ⟨[], [], [], []⟩

/-- Association-list read (`Map.get` / `Map.has`). -/
def alGet {α : Type} : List (String × α) → String → Option α
  | [], _ => none
  | (k', v) :: rest, k => if k' = k then some v else alGet rest k

/-- Association-list write (`Map.set`): overwrite in place or append. -/
def alSet {α : Type} : List (String × α) → String → α → List (String × α)
  | [], k, v => [(k, v)]
  | (k', v') :: rest, k, v =>
    if k' = k then (k, v) :: rest else (k', v') :: alSet rest k v

/-- In-place mutation of the object stored at a key (a JS field assignment
through a shared reference). -/
def alUpdate {α : Type} (m : List (String × α)) (k : String) (f : α → α) :
    List (String × α) :=
  m.map (fun p => if p.1 = k then (p.1, f p.2) else p)

/-- Dereference a slot against the Market heap. -/
def derefSlot (heap : List (String × Market)) : MSlot → Market
  | .ref k => (alGet heap k).getD
      { id := "", name := "", proportion := 0, price := 0, category := "",
        remainingHours := .num 0, icon := "", volume := 0, endDate := "" }
  | .val m => m

/-- The index (with its constituent Markets) as the caller observes it
through a cached `IndexObj`: constituent fields are read through the shared
Market heap. -/
def observeIndex (st : SvcState) (o : IndexObj) : Index :=
  { o.fields with markets := some (o.slots.map (derefSlot st.cachedMarkets)) }

/-- `PolynanceService.getMarket` (source lines 175-209): cache hit returns
the cached object (here: its key); otherwise fetch, normalize, cache, and
return the freshly cached object.  A provider failure is rethrown as
`Failed to fetch market ...`. -/
def getMarket (E : Env) (st : SvcState) (provider marketId : String) :
    Except String String × SvcState :=
  let cacheKey := provider ++ "-" ++ marketId
  match alGet st.cachedMarkets cacheKey with
  | some _ => (.ok cacheKey, st)
  | none =>
    match E.fetchExchange provider marketId with
    | none => (.error ("Failed to fetch market " ++ marketId), st)
    | some ex =>
      let market : Market :=
        { id := ex.id,
          name := ex.name,
          proportion := 1,
          price := getAveragePrice ex,
          category := jsOrStr ex.groupItemTitle "General",
          remainingHours := calculateRemainingHours (E.parseDate ex.endDate) E.nowMs,
          icon := jsOrStr ex.icon "",
          volume := 0,
          endDate := ex.endDate,
          position := some (jsOrStr (ex.position_tokens.head?.map (·.name)) "Unknown"),
          description := ex.description }
      (.ok cacheKey, { st with cachedMarkets := alSet st.cachedMarkets cacheKey market })

/-- `PolynanceService.getMarketPriceHistory` (source lines 217-243): a cache
hit returns `[cachedList]`; otherwise the history is fetched and, when the
market is cached and the first trade array is nonempty, the cached Market's
`volume` is overwritten in place.  Note that the source never writes to
`cachedPriceHistories`, so the fetch is repeated on every call. -/
def getMarketPriceHistory (E : Env) (st : SvcState) (provider marketId : String) :
    Except String (List (List TradeRecord)) × SvcState :=
  let cacheKey := provider ++ "-" ++ marketId
  match alGet st.cachedPriceHistories cacheKey with
  | some ph => (.ok [ph], st)
  | none =>
    match E.fetchPriceHistory provider marketId with
    | none => (.error ("Failed to fetch price history for market " ++ marketId), st)
    | some ph =>
      let st1 :=
        match alGet st.cachedMarkets cacheKey, ph with
        | some _, ph0 :: _ =>
          if ph0 ≠ [] then
            { st with cachedMarkets := (alUpdate st.cachedMarkets cacheKey
                (fun m => { m with
                  volume := ph0.foldl (fun s t => s + jsOrQ t.volumeBase) 0 })) }
          else st
        | _, _ => st
      (.ok ph, st1)

/-- `PolynanceService.getMarketOrderbook` (source lines 251-275): memoized
fetch of the order book. -/
def getMarketOrderbook (E : Env) (st : SvcState) (provider marketId : String) :
    Except String (List (String × OrderBookSummary)) × SvcState :=
  let cacheKey := provider ++ "-" ++ marketId
  match alGet st.cachedOrderbooks cacheKey with
  | some ob => (.ok ob, st)
  | none =>
    match E.fetchOrderbook provider marketId with
    | none => (.error ("Failed to fetch orderbook for market " ++ marketId), st)
    | some ob =>
      (.ok ob, { st with cachedOrderbooks := alSet st.cachedOrderbooks cacheKey ob })

/-- One constituent's pipeline inside `getIndexWithData` (source lines
299-322): fetch the Market, mutate its position and proportion in place,
fetch and attach price history, fetch and attach the order book; any failure
at any step makes this slot (and only this slot) a fallback Market.
`Math.random()` draws for a slot-`i` fallback start at stream position
`4 * i`. -/
def processSlot (E : Env) (st : SvcState) (total : Nat) (codes : List Int)
    (i : Nat) (marketId : String) : MSlot × SvcState :=
  let fallback : MSlot :=
    .val (createFallbackMarket E.rand E.isoDate E.nowMs (4 * i) marketId total
            (codes.getD i 0))
  match getMarket E st "polymarket" marketId with
  | (.error _, st1) => (fallback, st1)
  | (.ok key, st1) =>
    let st2 := { st1 with cachedMarkets := (alUpdate st1.cachedMarkets key
      (fun m => { m with
        position := some (if codes.getD i 0 = 1 then "YES" else "NO"),
        proportion := 1 / (total : ℚ) })) }
    match getMarketPriceHistory E st2 "polymarket" marketId with
    | (.error _, st3) => (fallback, st3)
    | (.ok ph, st3) =>
      let st4 := { st3 with cachedMarkets := (alUpdate st3.cachedMarkets key
        (fun m => { m with priceHistory := some ph })) }
      match getMarketOrderbook E st4 "polymarket" marketId with
      | (.error _, st5) => (fallback, st5)
      | (.ok ob, st5) =>
        (.ref key, { st5 with cachedMarkets := (alUpdate st5.cachedMarkets key
          (fun m => { m with orderbook := some ob })) })

/-- `PolynanceService.createFallbackIndex` (source lines 756-788): looks the
predefined definition up again and **throws** (`.error`) when the id is
unknown; otherwise copies the definition, fills the derived fields with
pseudo-random placeholders and synthesizes one fallback Market per declared
constituent. -/
def createFallbackIndex (E : Env) (indexId : String) : Except String IndexObj :=
  match predefinedIndexes.find? (fun p => p.id = indexId) with
  | none => .error ("Index with ID " ++ indexId ++ " not found")
  | some pre =>
    let daysRemaining :=
      match parseIntJs pre.resolutionTime with
      | none => 3
      | some 0 => 3
      | some n => n
    let fields : Index :=
      { pre with
        avgPrice := 3/4 + E.rand 100 * (1/5),
        priceChange24h := some (if E.rand 101 > 1/2
          then "+" ++ toFixed2 (E.rand 102 * 5) ++ "%"
          else "-" ++ toFixed2 (E.rand 102 * 3) ++ "%"),
        yieldRange := some ("+" ++ toFixed1 (5 + E.rand 103 * 5) ++ "%"),
        yieldLoss := some ("-" ++ toFixed1 (2 + E.rand 104 * 3) ++ "%"),
        volume := some (E.rand 105 * 10),
        daysRemaining := some daysRemaining,
        expired := some (jsToLower pre.status = "inactive"),
        settlementDate := some (E.fmtSettle daysRemaining) }
    .ok { fields := fields,
          slots := (pre.makrtesIds.enum.map (fun p =>
            MSlot.val (createFallbackMarket E.rand E.isoDate E.nowMs
              (200 + 4 * p.1) p.2 pre.makrtesIds.length
              (pre.positionNames.getD p.1 0)))) }

/-- The `try` body of `getIndexWithData` (source lines 284-334): cache hit,
definition lookup (throwing `Index with ID ... not found` when absent),
per-constituent pipeline with per-slot fallback, composite field
computation, and memoization of the completed index. -/
def getIndexWithDataInner (E : Env) (st : SvcState) (indexId : String) :
    Except String IndexObj × SvcState :=
  match alGet st.cachedIndexes indexId with
  | some o => (.ok o, st)
  | none =>
    match predefinedIndexes.find? (fun p => p.id = indexId) with
    | none => (.error ("Index with ID " ++ indexId ++ " not found"), st)
    | some pre =>
      let total := pre.makrtesIds.length
      let step := pre.makrtesIds.enum.foldl
        (fun (a : List MSlot × SvcState) p =>
          let r := processSlot E a.2 total pre.positionNames p.1 p.2
          (a.1 ++ [r.1], r.2)) ([], st)
      let slots := step.1
      let st1 := step.2
      let idxVal := calculateIndexFields E.rand E.fmtSettle
        { pre with markets := some (slots.map (derefSlot st1.cachedMarkets)) }
      let obj : IndexObj := { fields := { idxVal with markets := none }, slots := slots }
      (.ok obj, { st1 with cachedIndexes := alSet st1.cachedIndexes indexId obj })

/-- `PolynanceService.getIndexWithData` (source lines 282-340): the `catch`
handler converts any error into `createFallbackIndex(indexId)` — which
itself throws for an unknown id, and that exception propagates to the
caller. -/
def getIndexWithData (E : Env) (st : SvcState) (indexId : String) :
    Except String IndexObj × SvcState :=
  match getIndexWithDataInner E st indexId with
  | (.ok o, st1) => (.ok o, st1)
  | (.error _, st1) =>
    match createFallbackIndex E indexId with
    | .ok fb => (.ok fb, st1)
    | .error e => (.error e, st1)

/-- Is a slot a fallback Market (rather than a reference to a live cached
Market)? -/
def isFallbackSlot : MSlot → Bool
  | .val _ => true
  | .ref _ => false

/-- Project the slots out of a resolution result. -/
def resolvedSlots (r : Except String IndexObj) : Option (List MSlot) :=
  match r with
  | .ok o => some o.slots
  | .error _ => none

/-! ### Concrete fixtures for counterexamples and witnesses -/

/-- A degenerate `Math.random` stream. -/
def zeroRand : Nat → ℚ := fun _ => 0

/-- A degenerate trader-tag stream. -/
def emptyTag : Nat → String := fun _ => ""

/-- A trader-tag stream that records the draw position. -/
def numTag : Nat → String := fun n => toString n

/-- An environment in which every provider fetch fails. -/
def envAllFail : Env :=
  { fetchExchange := fun _ _ => none,
    fetchPriceHistory := fun _ _ => none,
    fetchOrderbook := fun _ _ => none,
    rand := zeroRand, tag := emptyTag,
    parseDate := fun _ => none, isoDate := fun _ => "",
    nowMs := 0, fmtSettle := fun _ => "" }

/-- An environment in which every fetch succeeds: exchanges carry no position
tokens, every price history is one trade with `volumeBase = v`, and order
books are empty.  Two calls with different `v` model upstream data changing
between fetches. -/
def envFetchV (v : ℚ) : Env :=
  { envAllFail with
    fetchExchange := fun _ mid => some
      { id := mid, name := "M", groupItemTitle := none, endDate := "e",
        icon := none, position_tokens := [], description := none },
    fetchPriceHistory := fun _ _ => some
      [[{ price := 1, volumeBase := v, timestamp := 1, trader := "t" }]],
    fetchOrderbook := fun _ _ => some [] }

/-- Service state after fully resolving `"reliable-forecast"` with upstream
volume `v`. -/
def stateAfterFirst (v : ℚ) : SvcState :=
  (getIndexWithData (envFetchV v) initState "reliable-forecast").2

/-- Service state after then resolving `"90-percent-index"` (which shares
constituent market `"544924"` with `"reliable-forecast"`) with upstream
volume `w`. -/
def stateAfterBoth (v w : ℚ) : SvcState :=
  (getIndexWithData (envFetchV w) (stateAfterFirst v) "90-percent-index").2

/-- The `volume` field of `"reliable-forecast"`'s third constituent (market
`"544924"`), observed through the *first* index's cached result. -/
def observedSharedVolume (st : SvcState) : Option ℚ :=
  match alGet st.cachedIndexes "reliable-forecast" with
  | some o => (((observeIndex st o).markets.getD []).get? 2).map (·.volume)
  | none => none

/-- A NO-position market whose first trade array is empty but whose second
(the selected NO side) has one trade. -/
def marketOnlySecondSide : Market :=
  { id := "m", name := "", proportion := 1, price := 0, category := "",
    remainingHours := .num 0, icon := "",
    priceHistory := some [[], [{ price := 3/10, volumeBase := 1, timestamp := 5, trader := "x" }]],
    volume := 0, endDate := "" }

/-- An index holding only `marketOnlySecondSide`, with position code `2`. -/
def idxOnlySecondSide : Index :=
  { id := "i", name := "", makrtesIds := ["m"], positionNames := [2],
    icons := [], avgPrice := 0, confilmYield := 0, status := "Active",
    contractAddress := "", resolutionTime := "",
    markets := some [marketOnlySecondSide] }

/-- An index whose resolved constituent list is empty. -/
def idxNoMarkets : Index :=
  { id := "e", name := "", makrtesIds := [], positionNames := [], icons := [],
    avgPrice := 0, confilmYield := 0, status := "Active", contractAddress := "",
    resolutionTime := "", markets := some [] }

/-- Scenario A constituent 1: YES at price `0.80`. -/
def marketYes80 : Market :=
  { id := "a", name := "", proportion := 1, price := 4/5, category := "",
    remainingHours := .num 0, icon := "", volume := 0, endDate := "" }

/-- Scenario A constituent 2: NO at price `0.30`. -/
def marketNo30 : Market :=
  { id := "b", name := "", proportion := 1, price := 3/10, category := "",
    remainingHours := .num 0, icon := "", volume := 0, endDate := "" }

/-- Scenario A: an active index with codes `[1, 2]` and prices
`[0.80, 0.30]`. -/
def idxScenarioA : Index :=
  { id := "sA", name := "", makrtesIds := ["a", "b"], positionNames := [1, 2],
    icons := [], avgPrice := 0, confilmYield := 0, status := "Active",
    contractAddress := "", resolutionTime := "3 days",
    markets := some [marketYes80, marketNo30] }

/-- Scenario A with `status = "Inactive"` (and `confilmYield` unset). -/
def idxScenarioAInactive : Index := { idxScenarioA with status := "Inactive" }

/-- Scenario B constituent A: YES with trades at `t=1, 3` on side 0. -/
def marketScenB1 : Market :=
  { marketYes80 with
    id := "sb1",
    priceHistory := some [[{ price := 1/2, volumeBase := 1, timestamp := 1, trader := "p" },
                           { price := 3/5, volumeBase := 1, timestamp := 3, trader := "q" }], []] }

/-- Scenario B constituent B: NO with a trade at `t=2` on side 0 and one at
`t=4` on side 1. -/
def marketScenB2 : Market :=
  { marketNo30 with
    id := "sb2",
    priceHistory := some [[{ price := 2/5, volumeBase := 1, timestamp := 2, trader := "r" }],
                           [{ price := 9/20, volumeBase := 1, timestamp := 4, trader := "s" }]] }

/-- Scenario B: codes `[1, 2]` over the two scenario-B constituents. -/
def idxScenarioB : Index :=
  { idxScenarioA with id := "sB", markets := some [marketScenB1, marketScenB2] }

/-- An index whose `markets` field was never populated. -/
def idxUnresolved : Index := { idxNoMarkets with markets := none }

/-- A single concrete trade. -/
def trade0 : TradeRecord := { price := 1/2, volumeBase := 2, timestamp := 10, trader := "z" }

/-- A one-cell caller heap holding `[trade0]` at address `0`. -/
def heap0 : Nat → List TradeRecord := fun _ => [trade0]


/-! ## Supporting lemmas -/

/-- Elements of an insertion. -/
theorem mem_insertTrade {a x : TradeRecord} {l : List TradeRecord} :
    a ∈ insertTrade x l ↔ a = x ∨ a ∈ l := by
  induction l with
  | nil => simp [insertTrade]
  | cons y ys ih =>
    by_cases h : y.timestamp ≤ x.timestamp
    · rw [insertTrade, if_pos h]
      simp only [List.mem_cons, ih]
      tauto
    · rw [insertTrade, if_neg h]
      simp only [List.mem_cons]

/-- Length of an insertion. -/
theorem length_insertTrade (x : TradeRecord) (l : List TradeRecord) :
    (insertTrade x l).length = l.length + 1 := by
  induction l with
  | nil => rfl
  | cons y ys ih =>
    by_cases h : y.timestamp ≤ x.timestamp <;> simp [insertTrade, h, ih]

/-- The sort preserves length. -/
theorem length_sortByTs (l : List TradeRecord) :
    (sortByTs l).length = l.length := by
  suffices h : ∀ acc : List TradeRecord,
      (l.foldl (fun acc x => insertTrade x acc) acc).length = l.length + acc.length by
    simpa using h []
  induction l with
  | nil => simp
  | cons y ys ih => intro acc; simp [ih, length_insertTrade]; omega

/-- Insertion preserves sortedness. -/
theorem pairwise_insertTrade {x : TradeRecord} {l : List TradeRecord}
    (hl : l.Pairwise (fun a b => a.timestamp ≤ b.timestamp)) :
    (insertTrade x l).Pairwise (fun a b => a.timestamp ≤ b.timestamp) := by
  induction l with
  | nil => simp [insertTrade]
  | cons y ys ih =>
    rcases List.pairwise_cons.mp hl with ⟨hy, hys⟩
    by_cases h : y.timestamp ≤ x.timestamp
    · rw [insertTrade, if_pos h]
      refine List.pairwise_cons.mpr ⟨?_, ih hys⟩
      intro a ha
      rcases mem_insertTrade.mp ha with rfl | ha'
      · exact h
      · exact hy a ha'
    · rw [insertTrade, if_neg h]
      refine List.pairwise_cons.mpr ⟨?_, hl⟩
      intro a ha
      rcases List.mem_cons.mp ha with rfl | ha'
      · exact le_of_not_le h
      · exact le_trans (le_of_not_le h) (hy a ha')

/-- The sort sorts. -/
theorem pairwise_sortByTs (l : List TradeRecord) :
    (sortByTs l).Pairwise (fun a b => a.timestamp ≤ b.timestamp) := by
  suffices h : ∀ acc : List TradeRecord,
      acc.Pairwise (fun a b => a.timestamp ≤ b.timestamp) →
      (l.foldl (fun acc x => insertTrade x acc) acc).Pairwise
        (fun a b => a.timestamp ≤ b.timestamp) from h [] (by simp)
  induction l with
  | nil => intro acc h; simpa using h
  | cons y ys ih => intro acc h; exact ih _ (pairwise_insertTrade h)

/-- Inserting above every element of a list puts the element in front. -/
theorem insertTrade_front {x : TradeRecord} {l : List TradeRecord}
    (h : ∀ z ∈ l.head?, ¬ z.timestamp ≤ x.timestamp) :
    insertTrade x l = x :: l := by
  cases l with
  | nil => rfl
  | cons z zs => simp [insertTrade, h z (by simp)]

/-- Filtering commutes with inserting into a sorted list. -/
theorem filter_insertTrade {x : TradeRecord} {l : List TradeRecord}
    (p : TradeRecord → Bool)
    (hl : l.Pairwise (fun a b => a.timestamp ≤ b.timestamp)) :
    (insertTrade x l).filter p
      = if p x then insertTrade x (l.filter p) else l.filter p := by
  induction l with
  | nil => by_cases hx : p x <;> simp [insertTrade, hx]
  | cons y ys ih =>
    rcases List.pairwise_cons.mp hl with ⟨hy, hys⟩
    by_cases h : y.timestamp ≤ x.timestamp
    · rw [insertTrade, if_pos h]
      by_cases hpy : p y
      · by_cases hx : p x
        · rw [List.filter_cons_of_pos (by simp [hpy]), ih hys, if_pos hx, if_pos hx,
            List.filter_cons_of_pos (by simp [hpy]), insertTrade, if_pos h]
        · rw [List.filter_cons_of_pos (by simp [hpy]), ih hys, if_neg hx, if_neg hx,
            List.filter_cons_of_pos (by simp [hpy])]
      · rw [List.filter_cons_of_neg (by simp [hpy]), ih hys]
        by_cases hx : p x
        · rw [if_pos hx, if_pos hx, List.filter_cons_of_neg (by simp [hpy])]
        · rw [if_neg hx, if_neg hx, List.filter_cons_of_neg (by simp [hpy])]
    · rw [insertTrade, if_neg h]
      by_cases hx : p x
      · rw [List.filter_cons_of_pos (by simp [hx]), if_pos hx]
        rw [insertTrade_front]
        intro z hz
        have hzmem : z ∈ (y :: ys).filter p := List.mem_of_mem_head? hz
        have hzy : z = y ∨ z ∈ ys := by
          have := List.mem_filter.mp hzmem
          exact List.mem_cons.mp this.1
        have hyz : y.timestamp ≤ z.timestamp := by
          rcases hzy with rfl | hz'
          · exact le_refl _
          · exact hy z hz'
        intro hc
        exact h (le_trans hyz hc)
      · rw [List.filter_cons_of_neg (by simp [hx]), if_neg hx]

/-- Appending one element on the right inserts it into the sort. -/
theorem sortByTs_append_singleton (l : List TradeRecord) (x : TradeRecord) :
    sortByTs (l ++ [x]) = insertTrade x (sortByTs l) := by
  simp [sortByTs, List.foldl_append]

/-- Filtering commutes with the stable sort. -/
theorem filter_sortByTs (p : TradeRecord → Bool) (l : List TradeRecord) :
    (sortByTs l).filter p = sortByTs (l.filter p) := by
  induction l using List.reverseRecOn with
  | nil => rfl
  | append_singleton l x ih =>
    rw [sortByTs_append_singleton, filter_insertTrade p (pairwise_sortByTs l), ih,
      List.filter_append]
    by_cases hx : p x
    · simp [hx, sortByTs_append_singleton]
    · simp [hx]



/-- Length of a retagging. -/
theorem length_retagFrom (tag : Nat → String) (n : Nat) (l : List TradeRecord) :
    (retagFrom tag n l).length = l.length := by
  induction l generalizing n with
  | nil => rfl
  | cons x xs ih => simp [retagFrom, ih]

/-- Retagging distributes over append, with the offset advanced. -/
theorem retagFrom_append (tag : Nat → String) (n : Nat) (xs ys : List TradeRecord) :
    retagFrom tag n (xs ++ ys) = retagFrom tag n xs ++ retagFrom tag (n + xs.length) ys := by
  induction xs generalizing n with
  | nil => simp [retagFrom]
  | cons x xs ih =>
    have h : n + 1 + xs.length = n + (xs.length + 1) := by omega
    simp [retagFrom, ih, h]

/-- The push loop over one selected trade array equals mapping and
retagging. -/
theorem collect_inner (tag : Nat → String) (l : List TradeRecord) :
    ∀ acc : List TradeRecord,
    l.foldl (fun acc2 r =>
        acc2 ++ [{ price := r.price, volumeBase := jsOrQ r.volumeBase,
                   timestamp := r.timestamp, trader := tag acc2.length }]) acc
      = acc ++ retagFrom tag acc.length (l.map untaggedRec) := by
  induction l with
  | nil => intro acc; simp [retagFrom]
  | cons r rs ih =>
    intro acc
    rw [List.foldl_cons, ih]
    simp [retagFrom, untaggedRec, List.append_assoc]

/-- The source's whole record-collection loop equals the declarative guarded
selection. -/
theorem collectRecords_eq (tag : Nat → String) (codes : List Int) (ms : List Market) :
    collectRecords tag codes ms = amendedSelectRecords tag codes ms := by
  suffices h : ∀ (L : List (Nat × Market)) (acc : List TradeRecord),
      L.foldl (fun acc p =>
        match p.2.priceHistory with
        | some (ph0 :: phrest) =>
          if ph0 ≠ [] then
            let positionIndex : Nat := if codes.getD p.1 0 = 1 then 0 else 1
            let positionHistory := (((ph0 :: phrest).get? positionIndex)).getD ph0
            positionHistory.foldl (fun acc2 r =>
              acc2 ++ [{ price := r.price, volumeBase := jsOrQ r.volumeBase,
                         timestamp := r.timestamp, trader := tag acc2.length }]) acc
          else acc
        | _ => acc) acc
      = acc ++ retagFrom tag acc.length ((L.map (amendedPerMarket codes)).flatten) by
    simpa [collectRecords, amendedSelectRecords] using h ms.enum []
  intro L
  induction L with
  | nil => intro acc; simp [retagFrom]
  | cons p L ih =>
    intro acc
    rw [List.foldl_cons]
    have hstep : (match p.2.priceHistory with
        | some (ph0 :: phrest) =>
          if ph0 ≠ [] then
            let positionIndex : Nat := if codes.getD p.1 0 = 1 then 0 else 1
            let positionHistory := (((ph0 :: phrest).get? positionIndex)).getD ph0
            positionHistory.foldl (fun acc2 r =>
              acc2 ++ [{ price := r.price, volumeBase := jsOrQ r.volumeBase,
                         timestamp := r.timestamp, trader := tag acc2.length }]) acc
          else acc
        | _ => acc)
        = acc ++ retagFrom tag acc.length (amendedPerMarket codes p) := by
      unfold amendedPerMarket
      match hph : p.2.priceHistory with
      | none => simp [retagFrom]
      | some [] => simp [retagFrom]
      | some (ph0 :: phrest) =>
        by_cases h0 : ph0 = []
        · simp [h0, retagFrom]
        · simp only [h0, ne_eq, not_false_iff, if_true, if_neg]
          rw [collect_inner]
    rw [hstep, ih, List.map_cons, List.flatten_cons, retagFrom_append,
      List.length_append, length_retagFrom, List.append_assoc]

/-- One unfolding of the mock loop. -/
theorem mockGo_succ (rand : Nat → ℚ) (tag : Nat → String) (nowSec : ℤ)
    (days n j : Nat) (price : ℚ) :
    mockGo rand tag nowSec days (n + 1) j price
      = { price := mockStep price (rand (2 * j + 1) * (6/100) - 3/100),
          volumeBase := rand (2 * j + 2) * 10000,
          timestamp := ((nowSec - ((days - j : Nat) : ℤ) * 86400 : ℤ) : ℚ),
          trader := tag j } ::
        mockGo rand tag nowSec days n (j + 1)
          (mockStep price (rand (2 * j + 1) * (6/100) - 3/100)) := rfl

/-- Length of the mock loop. -/
theorem length_mockGo (rand : Nat → ℚ) (tag : Nat → String) (nowSec : ℤ)
    (days : Nat) : ∀ (fuel j : Nat) (price : ℚ),
    (mockGo rand tag nowSec days fuel j price).length = fuel := by
  intro fuel
  induction fuel with
  | zero => intro j price; rfl
  | succ n ih => intro j price; rw [mockGo_succ]; simp [ih]

/-- Timestamps of the mock loop: one record per day. -/
theorem mockGo_timestamps (rand : Nat → ℚ) (tag : Nat → String) (nowSec : ℤ)
    (days : Nat) : ∀ (fuel j : Nat) (price : ℚ),
    (mockGo rand tag nowSec days fuel j price).map (·.timestamp)
      = (List.range fuel).map (fun k => (((nowSec - ((days - (j + k) : Nat) : ℤ) * 86400 : ℤ)) : ℚ)) := by
  intro fuel
  induction fuel with
  | zero => intro j price; rfl
  | succ n ih =>
    intro j price
    rw [mockGo_succ, List.range_succ_eq_map]
    simp only [List.map_cons, ih, List.map_map, List.cons.injEq]
    refine ⟨by norm_num, List.map_congr_left ?_⟩
    intro k _
    have hjk : j + 1 + k = j + (k + 1) := by omega
    simp [Function.comp, hjk]



/-- The synthetic series has 31 records (one per day, 30 days back through
today). -/
theorem length_generateMockPriceHistory (rand : Nat → ℚ) (tag : Nat → String)
    (nowSec : ℤ) (days : Nat) :
    (generateMockPriceHistory rand tag nowSec days).length = days + 1 := by
  unfold generateMockPriceHistory
  rw [length_mockGo]

/-- The synthetic series is never empty. -/
theorem generateMockPriceHistory_ne_nil (rand : Nat → ℚ) (tag : Nat → String)
    (nowSec : ℤ) (days : Nat) :
    generateMockPriceHistory rand tag nowSec days ≠ [] := by
  intro h
  have := length_generateMockPriceHistory rand tag nowSec days
  rw [h] at this
  simp at this

/-- Timestamps of the synthetic series: day `days - j` before `nowSec` at
position `j`. -/
theorem generateMockPriceHistory_timestamps (rand : Nat → ℚ) (tag : Nat → String)
    (nowSec : ℤ) (days : Nat) :
    (generateMockPriceHistory rand tag nowSec days).map (·.timestamp)
      = (List.range (days + 1)).map
          (fun j => (((nowSec - ((days - j : Nat) : ℤ) * 86400 : ℤ)) : ℚ)) := by
  unfold generateMockPriceHistory
  rw [mockGo_timestamps]
  refine List.map_congr_left ?_
  intro k _
  norm_num

/-- C5 (amended): `getIndexPriceHistory` performs the claimed side selection
only for constituents whose `priceHistory` is present, nonempty, and whose
*first* trade array is nonempty; such constituents' selected trades are
concatenated, tagged, and sorted ascending by timestamp, and when nothing is
selected the synthetic series is returned instead. -/
theorem C5_guarded_side_selection (rand : Nat → ℚ) (tag : Nat → String) (nowSec : ℤ)
    (idx : Index) (ms : List Market) (hms : idx.markets = some ms) :
    getIndexPriceHistory rand tag nowSec idx
      = if amendedSelectRecords tag idx.positionNames ms = []
        then generateMockPriceHistory rand tag nowSec 30
        else sortByTs (amendedSelectRecords tag idx.positionNames ms) := by
  unfold getIndexPriceHistory
  rw [hms]
  cases ms with
  | nil => simp [amendedSelectRecords, retagFrom]
  | cons m ms' =>
    simp only [← collectRecords_eq]

/-- C6 (amended): when an index has no constituent markets, or the
side-selected combined series is empty, `getIndexPriceHistory` returns the
synthetic daily series — which has 31 points (one per day, 30 days back
through today), not 30; and callers never receive an empty series. -/
theorem C6_synthetic_series_31_points (rand : Nat → ℚ) (tag : Nat → String) (nowSec : ℤ)
    (idx : Index) :
    getIndexPriceHistory rand tag nowSec idx ≠ [] ∧
    ((idx.markets = none ∨
        ∃ ms, idx.markets = some ms ∧ collectRecords tag idx.positionNames ms = []) →
      getIndexPriceHistory rand tag nowSec idx
          = generateMockPriceHistory rand tag nowSec 30 ∧
        (getIndexPriceHistory rand tag nowSec idx).length = 31 ∧
        (getIndexPriceHistory rand tag nowSec idx).map (·.timestamp)
          = (List.range 31).map
              (fun j => (((nowSec - ((30 - j : Nat) : ℤ) * 86400 : ℤ)) : ℚ))) := by
  have hmockconj : generateMockPriceHistory rand tag nowSec 30
        = generateMockPriceHistory rand tag nowSec 30 ∧
      (generateMockPriceHistory rand tag nowSec 30).length = 31 ∧
      (generateMockPriceHistory rand tag nowSec 30).map (·.timestamp)
        = (List.range 31).map
            (fun j => (((nowSec - ((30 - j : Nat) : ℤ) * 86400 : ℤ)) : ℚ)) :=
    ⟨rfl, length_generateMockPriceHistory rand tag nowSec 30,
      generateMockPriceHistory_timestamps rand tag nowSec 30⟩
  constructor
  · unfold getIndexPriceHistory
    cases hm : idx.markets with
    | none => exact generateMockPriceHistory_ne_nil rand tag nowSec 30
    | some ms =>
      cases ms with
      | nil => exact generateMockPriceHistory_ne_nil rand tag nowSec 30
      | cons m ms' =>
        simp only []
        by_cases hc : collectRecords tag idx.positionNames (m :: ms') = []
        · simp only [hc, if_pos]
          exact generateMockPriceHistory_ne_nil rand tag nowSec 30
        · rw [if_neg hc]
          intro hnil
          have := length_sortByTs (collectRecords tag idx.positionNames (m :: ms'))
          rw [hnil] at this
          exact hc (List.length_eq_zero.mp this.symm)
  · intro hcase
    unfold getIndexPriceHistory
    rcases hcase with hnone | ⟨ms, hms, hempty⟩
    · rw [hnone]
      exact ⟨by trivial, hmockconj.2⟩
    · rw [hms]
      cases ms with
      | nil => exact ⟨by trivial, hmockconj.2⟩
      | cons m ms' =>
        simp only [hempty, if_pos]
        exact ⟨by trivial, hmockconj.2⟩

/-- The JS default `x || 0` is the identity on a total rational. -/
theorem jsOrQ_self (x : ℚ) : jsOrQ x = x := by
  unfold jsOrQ
  split <;> simp_all

/-- `getD` over an enumeration versus a `zip` with the code list. -/
theorem yield_fold (codes : List Int) :
    ∀ (ms : List Market) (k : Nat) (a : ℚ), k + ms.length ≤ codes.length →
    (ms.enumFrom k).foldl (fun (a : ℚ) p =>
        if codes.getD p.1 0 = 1 ∧ p.2.price > 0 then a + (1 / p.2.price - 1) * 100
        else if ¬(codes.getD p.1 0 = 1) ∧ p.2.price < 1 then a + (1 / (1 - p.2.price) - 1) * 100
        else a) a
      = ((codes.drop k).zip ms).foldl (fun (a : ℚ) p =>
        if p.1 = 1 ∧ p.2.price > 0 then a + (1 / p.2.price - 1) * 100
        else if p.1 ≠ 1 ∧ p.2.price < 1 then a + (1 / (1 - p.2.price) - 1) * 100
        else a) a := by
  intro ms
  induction ms with
  | nil => intro k a h; simp
  | cons m rest ih =>
    intro k a h
    have hk : k < codes.length := by simp at h; omega
    have hdrop : codes.drop k = codes[k] :: codes.drop (k + 1) :=
      List.drop_eq_getElem_cons hk
    have hgd : codes.getD k 0 = codes[k] := List.getD_eq_getElem codes 0 hk
    rw [List.enumFrom_cons, List.foldl_cons, hdrop, List.zip_cons_cons,
      List.foldl_cons, hgd]
    exact ih (k + 1) _ (by simp at h ⊢; omega)

/-! ## Claim theorems -/

set_option maxHeartbeats 1000000 in
/-- C1: the claim fails on the code.  For an id with no predefined
definition, `getIndexWithData`'s `catch` handler calls
`createFallbackIndex`, which itself throws for exactly that id, so the
exception propagates to the caller instead of a fallback Index being
returned.  (The other half of the claim is real: for a known id all of whose
constituent fetches fail, the function returns an Index whose four slots are
all Fallback Markets.) -/
theorem C1_resolution_raises_on_unknown_id :
    (getIndexWithData envAllFail initState "nonexistent-index").1
      = .error "Index with ID nonexistent-index not found" ∧
    (resolvedSlots (getIndexWithData envAllFail initState "non-viable-candidate").1).map
      (fun ss => (ss.length, ss.all isFallbackSlot)) = some (4, true) := by
  exact ⟨rfl, rfl⟩

set_option maxHeartbeats 1600000 in
/-- C2 (counterexample): resolving `"90-percent-index"` after
`"reliable-forecast"` overwrites the shared cached Market `"544924"` in
place; the `volume` observed through the first index's already-cached result
changes from `10` to `20`. -/
theorem C2_shared_market_mutation_cex :
    observedSharedVolume (stateAfterFirst 10) = some 10 ∧
    observedSharedVolume (stateAfterBoth 10 20) = some 20 ∧
    (10 : ℚ) ≠ 20 := by
  refine ⟨?_, ?_, by norm_num⟩
  · show some (0 + jsOrQ 10) = some 10
    norm_num [jsOrQ]
  · show some (0 + jsOrQ 20) = some 20
    norm_num [jsOrQ]

set_option maxHeartbeats 1600000 in
/-- C2 (amended): `getMarket` returns the cached Market object itself and
`getIndexWithData` mutates it in place, so cached Index results alias the
shared Markets rather than owning copies: after resolving
`"90-percent-index"`, both cached indexes hold a reference to the *same*
Market object (cache key `"polymarket-544924"`), and that object's `volume`
— observed through `"reliable-forecast"`'s earlier cached result — has been
overwritten with the value computed from the second resolution's fresh
price-history fetch (`10` became `20`). -/
theorem C2_shared_market_overwritten :
    (alGet (stateAfterBoth 10 20).cachedIndexes "reliable-forecast").map
        (fun o => o.slots.get? 2) = some (some (MSlot.ref "polymarket-544924")) ∧
    (alGet (stateAfterBoth 10 20).cachedIndexes "90-percent-index").map
        (fun o => o.slots.get? 0) = some (some (MSlot.ref "polymarket-544924")) ∧
    observedSharedVolume (stateAfterFirst 10) = some 10 ∧
    observedSharedVolume (stateAfterBoth 10 20) = some 20 := by
  refine ⟨rfl, rfl, ?_, ?_⟩
  · show some (0 + jsOrQ 10) = some 10
    norm_num [jsOrQ]
  · show some (0 + jsOrQ 20) = some 20
    norm_num [jsOrQ]

/-- C3: the claim's formula holds for parseable end dates and the function
never throws, but for an unparseable end date the result is `NaN`, not `0`:
`new Date(bad).getTime()` is `NaN` without throwing, so the `catch` that
would return `0` never runs and `Math.max(0, NaN)` is `NaN`. -/
theorem C3_unparseable_date_yields_nan :
    calculateRemainingHours none 0 = JsNum.nan ∧ JsNum.nan ≠ JsNum.num 0 ∧
    (∀ endMs nowMs : ℚ, calculateRemainingHours (some endMs) nowMs
      = JsNum.num (max 0 ((endMs - nowMs) / 3600000))) := by
  refine ⟨rfl, by decide, fun endMs nowMs => ?_⟩
  show JsNum.num (max 0 ((endMs - nowMs) / (1000 * 60 * 60))) = _
  norm_num

set_option maxHeartbeats 1000000 in
/-- C4: the price-history memoization never happens.  After a successful
fetch for a key the `cachedPriceHistories` map is still empty, and a second
lookup with the same key hits the provider again (here: it returns the
changed upstream data, not the first call's). -/
theorem C4_price_history_not_memoized :
    (getMarketPriceHistory (envFetchV 1) initState "polymarket" "534197").2.cachedPriceHistories = [] ∧
    (getMarketPriceHistory (envFetchV 1) initState "polymarket" "534197").1
      = .ok [[{ price := 1, volumeBase := 1, timestamp := 1, trader := "t" }]] ∧
    (getMarketPriceHistory (envFetchV 2)
        (getMarketPriceHistory (envFetchV 1) initState "polymarket" "534197").2
        "polymarket" "534197").1
      = .ok [[{ price := 1, volumeBase := 2, timestamp := 1, trader := "t" }]] := by
  exact ⟨rfl, rfl, rfl⟩

/-- C5 (counterexample): a NO constituent whose first trade array is empty
is skipped entirely by the code even though its selected side has a trade,
so the code returns the 31-point synthetic series where the claim's
side-selection returns that one trade. -/
theorem C5_unguarded_selection_cex :
    getIndexPriceHistory zeroRand emptyTag 0 idxOnlySecondSide
      ≠ claimIndexPriceHistory emptyTag idxOnlySecondSide.positionNames [marketOnlySecondSide] ∧
    (getIndexPriceHistory zeroRand emptyTag 0 idxOnlySecondSide).length = 31 ∧
    (claimIndexPriceHistory emptyTag idxOnlySecondSide.positionNames [marketOnlySecondSide]).length = 1 := by
  have h1 : (getIndexPriceHistory zeroRand emptyTag 0 idxOnlySecondSide).length = 31 := rfl
  have h2 : (claimIndexPriceHistory emptyTag idxOnlySecondSide.positionNames
      [marketOnlySecondSide]).length = 1 := rfl
  refine ⟨fun heq => ?_, h1, h2⟩
  rw [heq, h2] at h1
  exact absurd h1 (by decide)

/-- C5 witness: the guarded selection evaluated at Scenario B (constituent A
YES with side-0 trades at `t = 1, 3`; constituent B NO selecting its side-1
trade at `t = 4`), giving the combined tagged series sorted by timestamp. -/
theorem C5_guarded_side_selection_witness :
    idxScenarioB.markets = some [marketScenB1, marketScenB2] ∧
    getIndexPriceHistory zeroRand numTag 0 idxScenarioB
      = [{ price := 1/2, volumeBase := 1, timestamp := 1, trader := "0" },
         { price := 3/5, volumeBase := 1, timestamp := 3, trader := "1" },
         { price := 9/20, volumeBase := 1, timestamp := 4, trader := "2" }] := by
  refine ⟨rfl, ?_⟩
  rw [C5_guarded_side_selection zeroRand numTag 0 idxScenarioB
    [marketScenB1, marketScenB2] rfl]
  rfl

/-- C6 (counterexample): for an index with no constituent markets the
synthetic series has 31 points, not the 30 the claim states. -/
theorem C6_mock_series_not_30_points_cex :
    (getIndexPriceHistory zeroRand emptyTag 0 idxNoMarkets).length = 31 ∧
    (31 : Nat) ≠ 30 := by
  exact ⟨rfl, by decide⟩

/-- C6 witness: the amended statement evaluated at an index whose `markets`
field was never populated. -/
theorem C6_synthetic_series_31_points_witness :
    getIndexPriceHistory zeroRand emptyTag 5 idxUnresolved ≠ [] ∧
    getIndexPriceHistory zeroRand emptyTag 5 idxUnresolved
      = generateMockPriceHistory zeroRand emptyTag 5 30 ∧
    (getIndexPriceHistory zeroRand emptyTag 5 idxUnresolved).length = 31 := by
  have h := C6_synthetic_series_31_points zeroRand emptyTag 5 idxUnresolved
  have h2 := h.2 (Or.inl rfl)
  exact ⟨h.1, h2.1, h2.2.1⟩

/-- C7: `generateCandleData` computes exactly the claimed bucketing — one
candle per non-empty bucket from the first to the last timestamp (none for
empty buckets), with open/close the first/last trade in time order, high/low
the extrema, volume the sum of `volumeBase`, and time the bucket start in
seconds — and a single-trade input yields exactly one candle with
`open = high = low = close = price`. -/
theorem C7_candle_generation (trades : List TradeRecord) (h : ℚ) (hpos : 0 < h) :
    generateCandleData trades h = claimCandleData trades h ∧
    ∀ t : TradeRecord, generateCandleData [t] h
      = [{ time := t.timestamp, openP := t.price, high := t.price,
           low := t.price, closeP := t.price, volume := t.volumeBase }] := by
  constructor
  · cases hs : sortByTs trades with
    | nil => simp [generateCandleData, candlesFromSorted, claimCandleData, hs]
    | cons s0 srest =>
      simp only [generateCandleData, candlesFromSorted, claimCandleData, claimCandle, hs]
      refine List.filterMap_congr ?_
      intro k _
      rw [← hs, filter_sortByTs]
  · intro t
    have hsort : sortByTs [t] = [t] := rfl
    have hd : (0 : ℚ) < h * 60 * 60 * 1000 := by positivity
    have hr : List.range (0 + 1) = [0] := rfl
    simp only [generateCandleData, hsort, candlesFromSorted,
      List.getLast?_singleton, Option.getD_some, sub_self, zero_div,
      Int.floor_zero, Int.toNat_zero, hr, List.filterMap_cons, List.filterMap_nil,
      Nat.cast_zero, zero_mul, add_zero]
    have hfil : List.filter
        (inBucket (t.timestamp * 1000) (t.timestamp * 1000 + h * 60 * 60 * 1000)) [t]
        = [t] := by
      simp [inBucket, List.filter, hd]
    rw [hfil]
    simp only [candleOfRecs, List.foldl_nil, List.getLast?_singleton,
      Option.getD_some, List.foldl_cons, zero_add, jsOrQ_self]
    norm_num

/-- C7 witness: a single-trade series at a 4-hour bucket width. -/
theorem C7_candle_generation_witness :
    (0 : ℚ) < 4 ∧
    generateCandleData [trade0] 4
      = [{ time := 10, openP := 1/2, high := 1/2, low := 1/2, closeP := 1/2,
           volume := 2 }] := by
  have h := C7_candle_generation [trade0] 4 (by norm_num)
  exact ⟨by norm_num, (h.2 trade0).trans (by rfl)⟩

/-- C8: for a case-insensitively `"inactive"` status, the composite field
computation sets `expired` and then — regardless of constituent data —
`yieldRange = "+<confilmYield>%"` (with `confilmYield` defaulting to `8.5`
when unset), `priceChange24h = "+0.00%"`, `volume = 0.05` and
`marketCap = 0.1`. -/
theorem C8_expired_branch (rand : Nat → ℚ) (fs : Nat → String) (idx : Index)
    (hin : jsToLower idx.status = "inactive") :
    (calculateIndexFields rand fs idx).expired = some true ∧
    (calculateIndexFields rand fs idx).yieldRange
      = some ("+" ++ jsNumRepr (if idx.confilmYield = 0 then (17 : ℚ)/2 else idx.confilmYield) ++ "%") ∧
    (calculateIndexFields rand fs idx).priceChange24h = some "+0.00%" ∧
    (calculateIndexFields rand fs idx).volume = some (1/20) ∧
    (calculateIndexFields rand fs idx).marketCap = some (1/10) := by
  unfold calculateIndexFields
  simp [hin]

/-- C8 witness: the expired branch evaluated at the Scenario A index with
`status = "Inactive"` and `confilmYield` unset, constituents present. -/
theorem C8_expired_branch_witness :
    jsToLower idxScenarioAInactive.status = "inactive" ∧
    (calculateIndexFields zeroRand emptyTag idxScenarioAInactive).yieldRange = some "+8.5%" ∧
    (calculateIndexFields zeroRand emptyTag idxScenarioAInactive).priceChange24h = some "+0.00%" ∧
    (calculateIndexFields zeroRand emptyTag idxScenarioAInactive).volume = some (1/20) ∧
    (calculateIndexFields zeroRand emptyTag idxScenarioAInactive).marketCap = some (1/10) := by
  have h := C8_expired_branch zeroRand emptyTag idxScenarioAInactive rfl
  have hfd : fracDigits 20 ((1 : ℚ)/2) = "5" := by
    unfold fracDigits
    rw [if_neg (by norm_num), show ⌊(1 : ℚ)/2 * 10⌋ = 5 from by norm_num,
      show ((1 : ℚ)/2 * 10 - ((5 : ℤ) : ℚ)) = 0 from by norm_num]
    rfl
  have h85 : jsNumRepr ((17 : ℚ)/2) = "8.5" := by
    norm_num [jsNumRepr, hfd]
    rw [show Int.fract |(17 : ℚ)/2| = 1/2 from by
          rw [show |(17 : ℚ)/2| = (17 : ℚ)/2 from by norm_num, Int.fract]
          norm_num,
        if_neg (show ¬((1 : ℚ)/2 = 0) from by norm_num),
        show (⌊|(17 : ℚ)/2|⌋).toNat = 8 from by
          rw [show |(17 : ℚ)/2| = (17 : ℚ)/2 from by norm_num,
            show ⌊(17 : ℚ)/2⌋ = 8 from by norm_num]
          rfl,
        hfd]
    rfl
  refine ⟨rfl, ?_, h.2.2.1, h.2.2.2.1, h.2.2.2.2⟩
  rw [h.2.1, if_pos (show idxScenarioAInactive.confilmYield = (0 : ℚ) from rfl), h85]
  rfl

/-- C9: for a non-expired index with constituents, the yield strings are the
claimed formula — sum over constituents (paired with their position codes)
of `(1/price - 1)*100` for YES with `price > 0` or `(1/(1-price) - 1)*100`
for NO with `price < 1`, divided by the constituent count — with
`yieldLoss = yieldValue * 0.5`, both formatted to one decimal. -/
theorem C9_yield_formula (rand : Nat → ℚ) (fs : Nat → String) (idx : Index)
    (ms : List Market) (hms : idx.markets = some ms) (hne : ms ≠ [])
    (hlen : idx.positionNames.length = ms.length)
    (hact : ¬ jsToLower idx.status = "inactive") :
    (calculateIndexFields rand fs idx).yieldRange
      = some ("+" ++ toFixed1 (claimYieldValue idx.positionNames ms) ++ "%") ∧
    (calculateIndexFields rand fs idx).yieldLoss
      = some ("-" ++ toFixed1 (claimYieldValue idx.positionNames ms * (1/2)) ++ "%") := by
  unfold calculateIndexFields claimYieldValue
  have hfold := yield_fold idx.positionNames ms 0 0 (by omega)
  rw [List.drop_zero] at hfold
  simp [hne, hact, hms, List.enum]
  simp at hfold
  refine ⟨?_, ?_⟩ <;> rw [hfold]

/-- C9 witness: Scenario A — codes `[1, 2]`, prices `[0.80, 0.30]` give
`yieldRange = "+33.9%"` and `yieldLoss = "-17.0%"`. -/
theorem C9_yield_formula_witness :
    idxScenarioA.markets = some [marketYes80, marketNo30] ∧
    (calculateIndexFields zeroRand emptyTag idxScenarioA).yieldRange = some "+33.9%" ∧
    (calculateIndexFields zeroRand emptyTag idxScenarioA).yieldLoss = some "-17.0%" := by
  have h := C9_yield_formula zeroRand emptyTag idxScenarioA [marketYes80, marketNo30]
    rfl (by simp) (by rfl) (by simp [jsToLower, idxScenarioA, idxScenarioAInactive])
  have hcy : claimYieldValue idxScenarioA.positionNames [marketYes80, marketNo30]
      = 475/14 := by
    unfold claimYieldValue
    norm_num [idxScenarioA, marketYes80, marketNo30, List.zip_cons_cons]
  have htf1 : toFixed1 ((475 : ℚ)/14) = "33.9" := by
    unfold toFixed1
    rw [show jsRound ((475 : ℚ)/14 * 10) = 339 from by unfold jsRound; norm_num]
    rfl
  have htf2 : toFixed1 ((475 : ℚ)/14 * (1/2)) = "17.0" := by
    unfold toFixed1
    rw [show jsRound ((475 : ℚ)/14 * (1/2) * 10) = 170 from by unfold jsRound; norm_num]
    rfl
  refine ⟨rfl, ?_, ?_⟩
  · rw [h.1, hcy, htf1]; rfl
  · rw [h.2, hcy, htf2]; rfl

/-- C10: `generateCandleData` sorts a copy: in the heap model the caller's
array is unchanged by the call, and the candles computed are those of the
pure function on the caller's (unmodified) series. -/
theorem C10_input_series_unchanged (heap : Nat → List TradeRecord)
    (r s : Nat) (h : ℚ) (hne : s ≠ r) :
    (generateCandleDataHeap heap r s h).1 r = heap r ∧
    (generateCandleDataHeap heap r s h).2 = generateCandleData (heap r) h := by
  unfold generateCandleDataHeap generateCandleData
  by_cases harr : heap r = []
  · simp [harr, sortByTs, candlesFromSorted]
  · simp [harr, Ne.symm hne]

/-- C10 witness: a concrete one-trade caller array at address `0`, scratch
copy at address `1`. -/
theorem C10_input_series_unchanged_witness :
    (1 : Nat) ≠ 0 ∧
    (generateCandleDataHeap heap0 0 1 4).1 0 = heap0 0 ∧
    (generateCandleDataHeap heap0 0 1 4).2 = generateCandleData (heap0 0) 4 := by
  have h := C10_input_series_unchanged heap0 0 1 4 (by decide)
  exact ⟨by decide, h.1, h.2⟩

end Polynance
